import Mathlib

/-!
Shallow embedding of the syndrome-table generator
(`lab-4/generate_error_table.py`) and of the noise-aggregation utility
(`lab-2/test_accumulated_errors.py`).

Pauli strings are modelled as `List Char` (the Python code works on `str`),
the syndrome dictionary as an association list with Python-`dict` insertion
semantics (updating an existing key in place, appending a fresh key), and
the fallible comparison `pauli_commute` as an `Except String Bool` value in
place of Python's `raise ValueError`.
-/

/-- The Pauli alphabet: `I`, `X`, `Y`, `Z`. -/
def pauliAlphabet : List Char := ['I', 'X', 'Y', 'Z']

/-- A list of characters drawn from the Pauli alphabet. -/
def IsPauliStr (p : List Char) : Prop := ∀ c ∈ p, c ∈ pauliAlphabet

instance (p : List Char) : Decidable (IsPauliStr p) := by
  unfold IsPauliStr; infer_instance

/-- The per-position test of `pauli_commute`: the condition
`(p1 == 'X' and p2 in ['Y','Z']) or (p1 == 'Y' and p2 in ['X','Z'])
or (p1 == 'Z' and p2 in ['X','Y'])` counting a locally anti-commuting pair. -/
def antiPair (q : Char × Char) : Bool :=
  (q.1 == 'X' && (q.2 == 'Y' || q.2 == 'Z')) ||
  (q.1 == 'Y' && (q.2 == 'X' || q.2 == 'Z')) ||
  (q.1 == 'Z' && (q.2 == 'X' || q.2 == 'Y'))

/-- The loop of `pauli_commute`: the number of positions of
`zip(pauli1, pauli2)` at which `antiPair` holds. -/
def anti_commute_count (p1 p2 : List Char) : Nat :=
  (p1.zip p2).countP antiPair

/-- The commutation parity returned by `pauli_commute` once the length
check has passed: `anti_commute_count % 2 == 0`. -/
def commutesB (p1 p2 : List Char) : Bool :=
  anti_commute_count p1 p2 % 2 == 0

/-- `pauli_commute(pauli1, pauli2)`: raises `ValueError` when the lengths
differ, otherwise returns whether the anti-commute count is even. -/
def pauli_commute (p1 p2 : List Char) : Except String Bool :=
  if p1.length ≠ p2.length then
    Except.error "Pauli strings must have same length"
  else
    Except.ok (commutesB p1 p2)

/-- The specification's per-position condition: both local operators are
non-identity and different from each other. -/
def specPair (q : Char × Char) : Bool :=
  !(q.1 == 'I') && !(q.2 == 'I') && !(q.1 == q.2)

/-- Stabilizer `S5 = 'ZIZIZIZ'`. -/
def S5v : List Char := ['Z', 'I', 'Z', 'I', 'Z', 'I', 'Z']

/-- Stabilizer `S4 = 'IZZIIZZ'`. -/
def S4v : List Char := ['I', 'Z', 'Z', 'I', 'I', 'Z', 'Z']

/-- Stabilizer `S3 = 'IIIZZZZ'`. -/
def S3v : List Char := ['I', 'I', 'I', 'Z', 'Z', 'Z', 'Z']

/-- Stabilizer `S2 = 'XIXIXIX'`. -/
def S2v : List Char := ['X', 'I', 'X', 'I', 'X', 'I', 'X']

/-- Stabilizer `S1 = 'IXXIIXX'`. -/
def S1v : List Char := ['I', 'X', 'X', 'I', 'I', 'X', 'X']

/-- Stabilizer `S0 = 'IIIXXXX'`. -/
def S0v : List Char := ['I', 'I', 'I', 'X', 'X', 'X', 'X']

/-- The generator order `['S5','S4','S3','S2','S1','S0']` used both by
`get_syndrome` and by the rendered table. -/
def stab_order : List (List Char) := [S5v, S4v, S3v, S2v, S1v, S0v]

/-- `get_syndrome(error_string)`: one bit per generator in `stab_order`,
`'0'` when the error commutes with the generator and `'1'` otherwise. -/
def get_syndrome (error : List Char) : List Char :=
  stab_order.map (fun s => if commutesB error s then '0' else '1')

/-- A single-qubit error: `['I']*7` with character `c` written at position
`6 - i` (qubit `i` is the rightmost position). -/
def errAt (c : Char) (i : Nat) : List Char :=
  (List.replicate 7 'I').set (6 - i) c

/-- The enumeration order of `generate_syndrome_dictionary`: for each qubit
index `i` from 0 to 6 the errors `X{i}`, `Y{i}`, `Z{i}` in that order, and
the identity `'I'` last. -/
def error_list : List (String × List Char) :=
  ((List.range 7).map (fun i =>
    [("X" ++ Nat.repr i, errAt 'X' i),
     ("Y" ++ Nat.repr i, errAt 'Y' i),
     ("Z" ++ Nat.repr i, errAt 'Z' i)])).flatten
  ++ [("I", List.replicate 7 'I')]

/-- Python-`dict` assignment `d[k] = v` on an association list: when the key
is already present its value is updated in place, otherwise the pair is
appended at the end (insertion order, as a Python dict preserves it). -/
def dictInsert (d : List (List Char × String)) (k : List Char) (v : String) :
    List (List Char × String) :=
  if d.any (fun p => p.1 == k) then
    d.map (fun p => if p.1 == k then (k, v) else p)
  else
    d ++ [(k, v)]

/-- Python-`dict` lookup `d[k]` (as an `Option`): the value of the unique
entry whose key matches. -/
def dictLookup (d : List (List Char × String)) (k : List Char) :
    Option String :=
  (d.find? (fun p => p.1 == k)).map (fun p => p.2)

/-- The construction loop of `generate_syndrome_dictionary`, factored over
its enumerated error sequence: `syndrome_dict[get_syndrome(err)] = label`
for each labelled error in order. -/
def buildSyndromeDict (errors : List (String × List Char)) :
    List (List Char × String) :=
  errors.foldl (fun d e => dictInsert d (get_syndrome e.2) e.1) []

/-- `generate_syndrome_dictionary()`: the dictionary built from the full
enumeration of `error_list`. -/
def generate_syndrome_dictionary : List (List Char × String) :=
  buildSyndromeDict error_list

/-- The commute/anti-commute cell text of the rendered table. -/
def commEntry (b : Bool) : String :=
  if b then "0 (commute)" else "1 (anti-commute)"

/-- The data rows printed by `generate_x_error_table()`: one row per X
error `X_0 .. X_6`, each row being the label cell `$X_i$`, the Pauli
string, and one commute/anti-commute cell per generator in `stab_order`. -/
def x_error_rows : List (List String) :=
  (List.range 7).map (fun i =>
    ("$X_" ++ Nat.repr i ++ "$") ::
    (errAt 'X' i).asString ::
    stab_order.map (fun s => commEntry (commutesB (errAt 'X' i) s)))

/-- Lexicographic strict comparison of two character lists by code point,
as Python's `<` on `str`. -/
def lexLt : List Char → List Char → Bool
  | [], [] => false
  | [], _ :: _ => true
  | _ :: _, [] => false
  | a :: as, b :: bs =>
    if a.toNat < b.toNat then true
    else if b.toNat < a.toNat then false
    else lexLt as bs

/-- Python's tuple comparison on `(syndrome, label)` items: by syndrome
first, by label on equal syndromes. -/
def pairLt (p q : List Char × String) : Bool :=
  if lexLt p.1 q.1 then true
  else if lexLt q.1 p.1 then false
  else lexLt p.2.data q.2.data

/-- Insert one item into a list kept in ascending `pairLt` order. -/
def insertSortedPair (x : List Char × String) :
    List (List Char × String) → List (List Char × String)
  | [] => [x]
  | y :: ys => if pairLt y x then y :: insertSortedPair x ys
               else x :: y :: ys

/-- Ascending sort of the dictionary items, as `sorted(syndrome_dict.items())`. -/
def sortPairs (l : List (List Char × String)) : List (List Char × String) :=
  l.foldr insertSortedPair []

/-- `sorted_syndromes`: the `(syndrome, label)` pairs in the order the
`__main__` block prints them. -/
def sorted_syndromes : List (List Char × String) :=
  sortPairs generate_syndrome_dictionary

/-- Executable check that a list of `(syndrome, label)` pairs is in
strictly ascending lexicographic order of the syndrome keys. -/
def isSortedByKey : List (List Char × String) → Bool
  | [] => true
  | [_] => true
  | p :: q :: rest => lexLt p.1 q.1 && isSortedByKey (q :: rest)

/-- A reported calibration parameter of a gate record, as in
`properties.gates[i].parameters`. -/
structure GateParam where
  name : String
  value : ℚ

/-- One record of `properties.gates`. -/
structure GateRecord where
  gate : String
  qubits : List Nat
  parameters : List GateParam

/-- The backend calibration data: `backend.properties()` when not `None`.
`gate_error` returns `none` where the Python call raises (the `try/except`
around it swallows the failure). Error rates are modelled as rationals. -/
structure BackendProperties where
  readout_error : Nat → ℚ
  gate_error : String → Nat → Option ℚ
  gates : List GateRecord

/-- One circuit instruction: its operation name and the logical qubit
indices `circuit.find_bit(q).index` of its operands. -/
structure Instruction where
  name : String
  qubits : List Nat

/-- The circuit interface `accumulated_errors` consumes. -/
structure Circuit where
  num_qubits : Nat
  data : List Instruction

/-- The search over `properties.gates` in the two-qubit branch: the first
gate record matching the name and physical qubits that carries a
`gate_error` parameter contributes its first such parameter's value. -/
def findTwoQubitError (gates : List GateRecord) (name : String)
    (phys : List Nat) : Option ℚ :=
  match gates with
  | [] => none
  | g :: rest =>
    if g.gate == name && g.qubits == phys then
      match g.parameters.find? (fun p => p.name == "gate_error") with
      | some p => some p.value
      | none => findTwoQubitError rest name phys
    else findTwoQubitError rest name phys

/-- The per-instruction accumulation step of `accumulated_errors`, acting on
the state `(acc_single_qubit_error, acc_two_qubit_error,
single_qubit_gate_count, two_qubit_gate_count)`. -/
def accStep (props : BackendProperties) (n : Nat)
    (st : ℚ × ℚ × Nat × Nat) (ins : Instruction) : ℚ × ℚ × Nat × Nat :=
  if ins.name == "measure" then st
  else
    match ins.qubits with
    | [q] =>
      let s1 := if q < n then
          match props.gate_error ins.name q with
          | some v => st.1 + v
          | none => st.1
        else st.1
      (s1, st.2.1, st.2.2.1 + 1, st.2.2.2)
    | [q1, q2] =>
      let s2 := if q1 < n && q2 < n then
          match findTwoQubitError props.gates ins.name [q1, q2] with
          | some v => st.2.1 + v
          | none => st.2.1
        else st.2.1
      (st.1, s2, st.2.2.1, st.2.2.2 + 1)
    | _ => st

/-- `accumulated_errors(backend, circuit)`: `backend.properties()` is passed
as an `Option`; `none` models `properties is None`. Returns
`[total, two_qubit, single_qubit, readout, single_count, two_count]`. -/
def accumulated_errors (properties : Option BackendProperties)
    (circuit : Circuit) : List ℚ :=
  match properties with
  | none => [0, 0, 0, 0, 0, 0]
  | some props =>
    let n := circuit.num_qubits
    let acc_readout_error :=
      ((List.range n).map (fun q => props.readout_error q)).sum
    let st := circuit.data.foldl (accStep props n) (0, 0, 0, 0)
    let acc_total_error := st.2.1 + st.1 + acc_readout_error
    [acc_total_error, st.2.1, st.1, acc_readout_error,
     (st.2.2.1 : ℚ), (st.2.2.2 : ℚ)]

deriving instance DecidableEq for Except

/-! ## Helper lemmas about the per-position commutation test -/

/-- Over the Pauli alphabet, the code's per-position test agrees with the
specification's "both non-identity and different" condition. -/
theorem antiPair_eq_specPair_on_alphabet :
    ∀ a ∈ pauliAlphabet, ∀ b ∈ pauliAlphabet,
      antiPair (a, b) = specPair (a, b) := by decide

/-- Over the Pauli alphabet, the code's per-position test is symmetric. -/
theorem antiPair_symm_on_alphabet :
    ∀ a ∈ pauliAlphabet, ∀ b ∈ pauliAlphabet,
      antiPair (a, b) = antiPair (b, a) := by decide

/-- For strings over the Pauli alphabet, the loop of `pauli_commute` counts
exactly the positions at which both operators are non-identity and differ. -/
theorem anti_commute_count_eq_spec (p1 : List Char) :
    ∀ p2 : List Char, IsPauliStr p1 → IsPauliStr p2 →
      anti_commute_count p1 p2 = (p1.zip p2).countP specPair := by
  unfold anti_commute_count
  induction p1 with
  | nil => intro p2 _ _; simp
  | cons a as ih =>
    intro p2 h1 h2
    cases p2 with
    | nil => simp
    | cons b bs =>
      have ha : a ∈ pauliAlphabet := h1 a (List.mem_cons_self a as)
      have hb : b ∈ pauliAlphabet := h2 b (List.mem_cons_self b bs)
      have has : IsPauliStr as := fun c hc => h1 c (List.mem_cons_of_mem a hc)
      have hbs : IsPauliStr bs := fun c hc => h2 c (List.mem_cons_of_mem b hc)
      simp only [List.zip_cons_cons, List.countP_cons]
      rw [ih bs has hbs, antiPair_eq_specPair_on_alphabet a ha b hb]

/-- For strings over the Pauli alphabet, the anti-commute count is
symmetric in its two arguments. -/
theorem anti_commute_count_symm (p1 : List Char) :
    ∀ p2 : List Char, IsPauliStr p1 → IsPauliStr p2 →
      anti_commute_count p1 p2 = anti_commute_count p2 p1 := by
  unfold anti_commute_count
  induction p1 with
  | nil => intro p2 _ _; cases p2 <;> simp
  | cons a as ih =>
    intro p2 h1 h2
    cases p2 with
    | nil => simp
    | cons b bs =>
      have ha : a ∈ pauliAlphabet := h1 a (List.mem_cons_self a as)
      have hb : b ∈ pauliAlphabet := h2 b (List.mem_cons_self b bs)
      have has : IsPauliStr as := fun c hc => h1 c (List.mem_cons_of_mem a hc)
      have hbs : IsPauliStr bs := fun c hc => h2 c (List.mem_cons_of_mem b hc)
      simp only [List.zip_cons_cons, List.countP_cons]
      rw [ih bs has hbs, antiPair_symm_on_alphabet a ha b hb]

/-! ## Helper lemmas about the dictionary with Python assignment semantics -/

/-- After updating the entries carrying key `k`, searching for key `k`
finds the updated pair, provided the key was present. -/
theorem find?_update_self (k : List Char) (v : String) :
    ∀ d : List (List Char × String), d.any (fun p => p.1 == k) = true →
      (d.map (fun p => if p.1 == k then (k, v) else p)).find?
          (fun p => p.1 == k) = some (k, v) := by
  intro d
  induction d with
  | nil => intro h; simp at h
  | cons p d ih =>
    intro h
    cases hp : (p.1 == k) with
    | true =>
      simp only [List.map_cons]
      rw [if_pos hp]
      simp [List.find?_cons]
    | false =>
      simp only [List.any_cons, hp, Bool.false_or] at h
      simp only [List.map_cons]
      rw [if_neg (by simp [hp])]
      simp only [List.find?_cons, hp]
      exact ih h

/-- Updating the entries carrying key `k` leaves searches for any other
key unchanged. -/
theorem find?_update_ne (k : List Char) (v : String) (k' : List Char)
    (hkk : (k == k') = false) :
    ∀ d : List (List Char × String),
      (d.map (fun p => if p.1 == k then (k, v) else p)).find?
          (fun p => p.1 == k') = d.find? (fun p => p.1 == k') := by
  intro d
  induction d with
  | nil => simp
  | cons p d ih =>
    cases hp : (p.1 == k) with
    | true =>
      have hp' : p.1 = k := by simpa using hp
      simp only [List.map_cons]
      rw [if_pos hp]
      simp only [List.find?_cons, hp', hkk]
      exact ih
    | false =>
      simp only [List.map_cons]
      rw [if_neg (by simp [hp])]
      simp only [List.find?_cons]
      cases hpk : (p.1 == k') with
      | true => simp [hpk]
      | false =>
        simp only [hpk]
        exact ih

/-- Looking up a key after a Python-`dict` assignment: the assigned key now
maps to the new value, every other key is unchanged. -/
theorem dictLookup_insert (d : List (List Char × String)) (k : List Char)
    (v : String) (k' : List Char) :
    dictLookup (dictInsert d k v) k' =
      if k == k' then some v else dictLookup d k' := by
  unfold dictInsert dictLookup
  cases hany : d.any (fun p => p.1 == k) with
  | true =>
    rw [if_pos rfl]
    cases hk : (k == k') with
    | true =>
      have hk' : k = k' := by simpa using hk
      subst hk'
      rw [if_pos rfl, find?_update_self k v d hany]
      rfl
    | false =>
      rw [if_neg (by simp), find?_update_ne k v k' hk d]
  | false =>
    rw [if_neg (by simp), List.find?_append]
    cases hk : (k == k') with
    | true =>
      have hk' : k = k' := by simpa using hk
      subst hk'
      have hnone : d.find? (fun p => p.1 == k) = none := by
        rw [List.find?_eq_none]
        intro x hx
        simp only [List.any_eq_false] at hany
        simpa using hany x hx
      rw [if_pos rfl, hnone]
      simp [List.find?_cons]
    | false =>
      rw [if_neg (by simp)]
      have hsingle : ([(k, v)] : List (List Char × String)).find?
          (fun p => p.1 == k') = none := by
        simp [List.find?_cons, hk]
      rw [hsingle]
      simp

/-- Folding Python-`dict` assignments over a labelled error sequence: a
key ends up bound to the label of the last error whose syndrome equals it,
and failing that to its binding in the starting dictionary. -/
theorem dictLookup_buildFold (k : List Char) :
    ∀ (es : List (String × List Char)) (d : List (List Char × String)),
      dictLookup (es.foldl (fun d e => dictInsert d (get_syndrome e.2) e.1) d) k
        = ((es.reverse.find? (fun e => get_syndrome e.2 == k)).map
            (fun e => e.1)).or (dictLookup d k) := by
  intro es
  induction es with
  | nil => intro d; simp
  | cons e es ih =>
    intro d
    simp only [List.foldl_cons, List.reverse_cons]
    rw [ih (dictInsert d (get_syndrome e.2) e.1), dictLookup_insert,
      List.find?_append]
    cases hp : (get_syndrome e.2 == k) with
    | true =>
      cases hf : es.reverse.find? (fun e => get_syndrome e.2 == k) with
      | none => simp [List.find?_cons, hp, hf]
      | some w => simp [List.find?_cons, hp, hf]
    | false => simp [List.find?_cons, hp, Option.or_none]

/-! ## Helper lemmas about the output sort -/

/-- Inserting into the sorted run produces a permutation of consing. -/
theorem insertSortedPair_perm (x : List Char × String) :
    ∀ l : List (List Char × String), (insertSortedPair x l).Perm (x :: l) := by
  intro l
  induction l with
  | nil => exact List.Perm.refl _
  | cons y ys ih =>
    unfold insertSortedPair
    by_cases h : pairLt y x = true
    · rw [if_pos h]
      exact (ih.cons y).trans (List.Perm.swap x y ys)
    · rw [if_neg h]

/-- The executable sortedness check implies the chain of strict
lexicographic key comparisons. -/
theorem chain_of_isSortedByKey :
    ∀ l : List (List Char × String), isSortedByKey l = true →
      List.Chain' (fun p q => lexLt p.1 q.1 = true) l := by
  intro l
  induction l with
  | nil => intro _; simp
  | cons x xs ih =>
    cases xs with
    | nil => intro _; simp
    | cons y ys =>
      intro h
      unfold isSortedByKey at h
      rw [Bool.and_eq_true] at h
      rw [List.chain'_cons]
      exact ⟨h.1, ih h.2⟩

/-- The insertion sort of the printing step permutes its input. -/
theorem sortPairs_perm (l : List (List Char × String)) :
    (sortPairs l).Perm l := by
  induction l with
  | nil => exact List.Perm.refl _
  | cons x xs ih =>
    unfold sortPairs at ih ⊢
    simp only [List.foldr_cons]
    exact (insertSortedPair_perm x _).trans (ih.cons x)

/-! ## The claims -/

/-- C1: enumerating all 21 weight-1 X/Y/Z errors plus the identity (22
operators) against the 6 given generators yields 22 pairwise-distinct
syndromes, so the built dictionary has exactly 22 entries and no insertion
during construction ever finds its syndrome already present. -/
theorem syndrome_dictionary_no_collisions :
    error_list.length = 22 ∧
    (error_list.map (fun e => get_syndrome e.2)).Nodup ∧
    generate_syndrome_dictionary.length = 22 := by decide

/-- C2 counterexample: the construction loop keeps the label inserted
LAST for a repeated syndrome and records no collision report — running it
on two errors with equal syndromes leaves the later label in the table,
not the first-inserted one as the claim states. -/
theorem collision_counterexample :
    dictLookup (buildSyndromeDict
        [("first", errAt 'X' 0), ("second", errAt 'X' 0)])
      (get_syndrome (errAt 'X' 0)) = some "second" ∧
    "second" ≠ "first" := by decide

/-- C2 (amended): the builder records no collision reports and resolves a
repeated syndrome by silent overwrite — after construction, a syndrome is
mapped to the label of the LAST enumerated error carrying it, and absent
from the table when no enumerated error produces it. -/
theorem buildSyndromeDict_last_label_wins
    (es : List (String × List Char)) (k : List Char) :
    dictLookup (buildSyndromeDict es) k =
      (es.reverse.find? (fun e => get_syndrome e.2 == k)).map
        (fun e => e.1) := by
  unfold buildSyndromeDict
  rw [dictLookup_buildFold]
  simp [dictLookup]

/-- C3 counterexample: the rendered commutation table has one row per X
error only — 7 rows, not one row for each of the 22 enumerated error
operators. -/
theorem x_error_table_row_count :
    x_error_rows.length = 7 ∧ x_error_rows.length ≠ 22 := by decide

/-- C3 (amended): the rendered commutation table contains one row for each
of the 7 single-qubit X errors only, in ascending qubit order `$X_0$` to
`$X_6$`, each row listing the label, the Pauli string, and a
"0 (commute)" / "1 (anti-commute)" entry per generator in the order
S5, S4, S3, S2, S1, S0; Y errors, Z errors and the identity get no rows. -/
theorem x_error_table_rows_exact :
    x_error_rows =
      [["$X_0$", "IIIIIIX", "1 (anti-commute)", "1 (anti-commute)",
        "1 (anti-commute)", "0 (commute)", "0 (commute)", "0 (commute)"],
       ["$X_1$", "IIIIIXI", "0 (commute)", "1 (anti-commute)",
        "1 (anti-commute)", "0 (commute)", "0 (commute)", "0 (commute)"],
       ["$X_2$", "IIIIXII", "1 (anti-commute)", "0 (commute)",
        "1 (anti-commute)", "0 (commute)", "0 (commute)", "0 (commute)"],
       ["$X_3$", "IIIXIII", "0 (commute)", "0 (commute)",
        "1 (anti-commute)", "0 (commute)", "0 (commute)", "0 (commute)"],
       ["$X_4$", "IIXIIII", "1 (anti-commute)", "1 (anti-commute)",
        "0 (commute)", "0 (commute)", "0 (commute)", "0 (commute)"],
       ["$X_5$", "IXIIIII", "0 (commute)", "1 (anti-commute)",
        "0 (commute)", "0 (commute)", "0 (commute)", "0 (commute)"],
       ["$X_6$", "XIIIIII", "1 (anti-commute)", "0 (commute)",
        "0 (commute)", "0 (commute)", "0 (commute)", "0 (commute)"]] := by
  decide

/-- C4: for equal-length strings over the Pauli alphabet, `pauli_commute`
returns `True` exactly when the number of positions at which the two local
operators are both non-identity and different is even. -/
theorem pauli_commute_iff_even_mismatch (p1 p2 : List Char)
    (h1 : IsPauliStr p1) (h2 : IsPauliStr p2) (hl : p1.length = p2.length) :
    pauli_commute p1 p2 = Except.ok true ↔
      Even ((p1.zip p2).countP specPair) := by
  unfold pauli_commute
  rw [if_neg (by omega)]
  simp only [Except.ok.injEq]
  unfold commutesB
  rw [anti_commute_count_eq_spec p1 p2 h1 h2]
  simp [Nat.even_iff]

/-- C4 witness: the theorem applied at a concrete pair of one-qubit-overlap
strings. -/
theorem pauli_commute_iff_even_mismatch_witness :
    pauli_commute ['X', 'I'] ['Z', 'Z'] = Except.ok true ↔
      Even ((['X', 'I'].zip ['Z', 'Z']).countP specPair) :=
  pauli_commute_iff_even_mismatch ['X', 'I'] ['Z', 'Z']
    (by decide) (by decide) rfl

/-- C5: `pauli_commute` signals the length-mismatch error exactly when its
two arguments have different lengths (so equal-length inputs never raise,
and unequal-length inputs abort instead of being truncated). -/
theorem pauli_commute_length_mismatch (p1 p2 : List Char) :
    pauli_commute p1 p2 =
        Except.error "Pauli strings must have same length" ↔
      p1.length ≠ p2.length := by
  unfold pauli_commute
  by_cases h : p1.length = p2.length
  · rw [if_neg (by omega)]
    simp [h]
  · rw [if_pos (by omega)]
    simp [h]

/-- C6: looking each enumerated error's syndrome up in the built
dictionary returns that error's own label. -/
theorem syndrome_lookup_roundtrip :
    ∀ e ∈ error_list,
      dictLookup generate_syndrome_dictionary (get_syndrome e.2) =
        some e.1 := by decide

/-- C6 witness: the round trip at the error `X0`. -/
theorem syndrome_lookup_roundtrip_witness :
    dictLookup generate_syndrome_dictionary
        (get_syndrome (errAt 'X' 0)) = some "X0" :=
  syndrome_lookup_roundtrip ("X0", errAt 'X' 0) (by decide)

/-- C7: every pair of the six reference generators commutes, so the
supplied set is a valid mutually commuting stabilizer set. -/
theorem generators_mutually_commute :
    ∀ g1 ∈ stab_order, ∀ g2 ∈ stab_order,
      pauli_commute g1 g2 = Except.ok true := by decide

/-- C7 witness: the theorem applied at the pair (S5, S0). -/
theorem generators_mutually_commute_witness :
    pauli_commute S5v S0v = Except.ok true :=
  generators_mutually_commute S5v (by decide) S0v (by decide)

/-- C8: the commutation test is symmetric on equal-length Pauli strings. -/
theorem pauli_commute_symm (p1 p2 : List Char)
    (h1 : IsPauliStr p1) (h2 : IsPauliStr p2) (hl : p1.length = p2.length) :
    pauli_commute p1 p2 = pauli_commute p2 p1 := by
  unfold pauli_commute
  rw [if_neg (by omega), if_neg (by omega)]
  unfold commutesB
  rw [anti_commute_count_symm p1 p2 h1 h2]

/-- C8 witness: symmetry at a concrete pair. -/
theorem pauli_commute_symm_witness :
    pauli_commute ['X', 'Y'] ['Z', 'I'] =
      pauli_commute ['Z', 'I'] ['X', 'Y'] :=
  pauli_commute_symm ['X', 'Y'] ['Z', 'I'] (by decide) (by decide) rfl

/-- C9: the `(syndrome, label)` pairs the `__main__` block prints are the
dictionary's pairs rearranged into strictly ascending lexicographic order
of the syndrome bit strings. -/
theorem printed_dictionary_sorted :
    List.Chain' (fun p q => lexLt p.1 q.1 = true) sorted_syndromes ∧
      sorted_syndromes.Perm generate_syndrome_dictionary :=
  ⟨chain_of_isSortedByKey sorted_syndromes (by decide),
   sortPairs_perm generate_syndrome_dictionary⟩

/-- C10: when `backend.properties()` is `None`, `accumulated_errors`
returns `[0, 0, 0, 0, 0, 0]` for every circuit, never inspecting it. -/
theorem accumulated_errors_none_returns_zeros (circuit : Circuit) :
    accumulated_errors none circuit = [0, 0, 0, 0, 0, 0] := rfl
